import Mathlib

/-!
Verification of the issue-cache helper module (src/git_issues.py).

The module operates on a mutable sequence of issue dictionaries.  We embed:

* a Python value as `Value` (None, bool, int, str; the only value shapes the
  helpers inspect),
* an issue dictionary as `Record`, an ordered association list keyed by field
  name (lookup returns the first binding; assignment updates the first
  binding in place or appends, exactly like insertion-ordered dicts),
* the caller's collection as `Issues`,
* the exceptions as `Err`: `keyError` for the KeyError raised by
  `_issue_identifier`, `valueError` for a failing int() coercion, and
  `notFound` for IssueNotFoundError.

Every operation that can mutate the collection is embedded in state-passing
style: it returns the produced value (or the raised error) together with the
collection as it stands when the function returns or raises.  Python's
`str.lower` and `str.strip` are modelled on ASCII letters and the four
common whitespace characters, using `Char.toLower` and `Char.isWhitespace`;
`int()` on strings is modelled by an explicit signed-decimal parser applied
after stripping.
-/

inductive Value where
  | vNone : Value
  | vBool : Bool → Value
  | vInt : Int → Value
  | vStr : String → Value
deriving DecidableEq, Repr

inductive Err where
  | keyError : Err
  | valueError : Err
  | notFound : Err
deriving DecidableEq, Repr

instance {ε α : Type} [DecidableEq ε] [DecidableEq α] : DecidableEq (Except ε α) := fun x y =>
  match x, y with
  | Except.ok a, Except.ok b =>
      if h : a = b then isTrue (by rw [h])
      else isFalse (fun hh => h (Except.ok.inj hh))
  | Except.error a, Except.error b =>
      if h : a = b then isTrue (by rw [h])
      else isFalse (fun hh => h (Except.error.inj hh))
  | Except.ok _, Except.error _ => isFalse (fun hh => Except.noConfusion hh)
  | Except.error _, Except.ok _ => isFalse (fun hh => Except.noConfusion hh)

abbrev Record := List (String × Value)

abbrev Issues := List Record

/-- Dictionary lookup `r[k]`: the first binding of key `k`, if any. -/
def rget : Record → String → Option Value
  | [], _ => none
  | (k', v) :: rest, k => if k' = k then some v else rget rest k

/-- Python's `dict.get(k)`: absent keys read as None. -/
def rgetd (r : Record) (k : String) : Value :=
  (rget r k).getD Value.vNone

/-- Dictionary assignment `r[k] = v`: overwrite the first binding in place,
or append a new binding (insertion-ordered dict semantics). -/
def rinsert : Record → String → Value → Record
  | [], k, v => [(k, v)]
  | (k', v') :: rest, k, v =>
      if k' = k then (k, v) :: rest else (k', v') :: rinsert rest k v

/-- Python's `dict.setdefault(k, v)`: keep an existing binding, otherwise
append `k ↦ v`. -/
def rsetdefault (r : Record) (k : String) (v : Value) : Record :=
  if (rget r k).isSome then r else r ++ [(k, v)]

/-- Python truthiness of the embedded values. -/
def truthy : Value → Bool
  | Value.vNone => false
  | Value.vBool b => b
  | Value.vInt n => n != 0
  | Value.vStr s => s != ""

/-- Python's `str(value)` on the embedded values. -/
def pyStr : Value → String
  | Value.vNone => "None"
  | Value.vBool true => "True"
  | Value.vBool false => "False"
  | Value.vInt n => toString n
  | Value.vStr s => s

/-- Python's `str.lower` (ASCII model). -/
def lowerStr (s : String) : String :=
  ⟨s.data.map Char.toLower⟩

/-- Python's `str.strip` on a character list: drop leading and trailing
whitespace. -/
def stripList (l : List Char) : List Char :=
  ((l.dropWhile Char.isWhitespace).reverse.dropWhile Char.isWhitespace).reverse

/-- Python's `str.strip` (common-whitespace model). -/
def stripStr (s : String) : String :=
  ⟨stripList s.data⟩

/-- Decimal-digit run parser used to model `int()` on strings. -/
def digitsToNatAux : List Char → Nat → Option Nat
  | [], acc => some acc
  | c :: cs, acc =>
      if c.isDigit then digitsToNatAux cs (acc * 10 + (c.toNat - 48)) else none

/-- Parse a non-empty run of decimal digits. -/
def digitsToNat : List Char → Option Nat
  | [] => none
  | l => digitsToNatAux l 0

/-- Parse an optionally signed decimal integer (the shapes `int()` accepts
after stripping). -/
def parseIntList : List Char → Option Int
  | [] => none
  | '-' :: rest => (digitsToNat rest).map (fun n => -(n : Int))
  | '+' :: rest => (digitsToNat rest).map (fun n => (n : Int))
  | l => (digitsToNat l).map (fun n => (n : Int))

/-- Python's `int(value)` on the embedded values: ints pass through, bools
read as 0 / 1, strings are stripped and parsed (ValueError when not
numeric), None raises (modelled as the same non-KeyError failure). -/
def pyInt : Value → Except Err Int
  | Value.vInt n => Except.ok n
  | Value.vBool b => Except.ok (if b then 1 else 0)
  | Value.vStr s =>
      match parseIntList (stripList s.data) with
      | some n => Except.ok n
      | none => Except.error Err.valueError
  | Value.vNone => Except.error Err.valueError

/-- Source `_normalise_state`: None becomes "open", anything else is
stringified, stripped and lowercased. -/
def _normalise_state (v : Value) : String :=
  match v with
  | Value.vNone => "open"
  | v => lowerStr (stripStr (pyStr v))

/-- The identifier fields probed by `_issue_identifier`, in priority order. -/
def identifierKeys : List String :=
  ["number", "id", "issue_id", "issueNumber"]

/-- The key-probing loop of `_issue_identifier`: return `int(issue[key])`
for the first present key, else raise KeyError. -/
def findIdentAux : List String → Record → Except Err Int
  | [], _ => Except.error Err.keyError
  | k :: ks, r =>
      match rget r k with
      | some v => pyInt v
      | none => findIdentAux ks r

/-- Source `_issue_identifier`. -/
def _issue_identifier (r : Record) : Except Err Int :=
  findIdentAux identifierKeys r

/-- Source `_ensure_issue_number`: resolve the identifier and setdefault it
into the `number` field; returns the identifier with the updated record. -/
def _ensure_issue_number (r : Record) : Except Err (Int × Record) :=
  match _issue_identifier r with
  | Except.error e => Except.error e
  | Except.ok k => Except.ok (k, rsetdefault r "number" (Value.vInt k))

/-- The record as left by a successful `_ensure_issue_number` (the record
itself when resolution fails); used to state theorems. -/
def ensureRec (r : Record) : Record :=
  match _issue_identifier r with
  | Except.ok k => rsetdefault r "number" (Value.vInt k)
  | Except.error _ => r

/-- Source `_get_state`: `state or status` if that is non-None (normalised),
else "closed" when a `closed`/`completed` flag is truthy, else "open". -/
def _get_state (r : Record) : String :=
  let st := if truthy (rgetd r "state") then rgetd r "state" else rgetd r "status"
  match st with
  | Value.vNone =>
      if truthy (rgetd r "closed") || truthy (rgetd r "completed") then "closed"
      else "open"
  | v => _normalise_state v

/-- Source `_set_state`: write the normalised state to `state` and `status`,
and set `closed` to whether it equals "closed". -/
def _set_state (r : Record) (s : String) : Record :=
  let n := _normalise_state (Value.vStr s)
  rinsert (rinsert (rinsert r "state" (Value.vStr n)) "status" (Value.vStr n))
    "closed" (Value.vBool (n == "closed"))

/-- Source `_is_open`: the state is none of closed/completed/done/resolved. -/
def _is_open (r : Record) : Bool :=
  let s := _get_state r
  !(s == "closed" || s == "completed" || s == "done" || s == "resolved")

example : _is_open [("state", Value.vStr " Closed ")] = false := by decide
example : _is_open [("id", Value.vInt 4), ("closed", Value.vBool false)] = true := by decide
example : _get_state [("completed", Value.vBool true)] = "closed" := by decide
example : _issue_identifier [("issue_id", Value.vStr "7")] = Except.ok 7 := by decide
example : _issue_identifier [("title", Value.vStr "x")] = Except.error Err.keyError := by decide

/-- The record as left by `close_issue` on the record it finds: number
ensured, then state set to "closed"; used to state theorems. -/
def closeRec (r : Record) : Record :=
  _set_state (ensureRec r) "closed"

/-- The record as left by `complete_issue` on the record it finds: closed,
then flagged `completed = True`; used to state theorems. -/
def completeRec (r : Record) : Record :=
  rinsert (closeRec r) "completed" (Value.vBool true)

/-- What `complete_open_issues` (no restriction, distinct identifiers)
leaves of one record: completed when it was open, number ensured otherwise;
used to state theorems. -/
def finalRec (r : Record) : Record :=
  if _is_open r then completeRec r else ensureRec r

/-- The copy of a record as produced by `list_open_issues`: the shallow copy
with the identifier setdefault-ed into `number` when resolvable, the plain
copy when no identifier field is present; used to state theorems. -/
def copyRec (r : Record) : Record :=
  match _issue_identifier r with
  | Except.ok k => rsetdefault r "number" (Value.vInt k)
  | Except.error _ => r

/-- The loop of `list_open_issues` over the collection: for each open issue
append `dict(issue)` with `number` setdefault-ed to the resolved identifier,
passing on a KeyError from the resolution; a ValueError from the int()
coercion propagates.  The loop only reads the collection, so the final
collection state it reports is the one it was given. -/
def lowLoop (issues : Issues) (fuel index : Nat) (acc : List Record) :
    Except Err (List Record) × Issues :=
  match fuel with
  | 0 => (Except.ok acc, issues)
  | fuel' + 1 =>
      if index < issues.length then
        let issue := issues.getD index []
        if _is_open issue then
          match _issue_identifier issue with
          | Except.ok k =>
              lowLoop issues fuel' (index + 1) (acc ++ [rsetdefault issue "number" (Value.vInt k)])
          | Except.error Err.keyError => lowLoop issues fuel' (index + 1) (acc ++ [issue])
          | Except.error e => (Except.error e, issues)
        else lowLoop issues fuel' (index + 1) acc
      else (Except.ok acc, issues)

/-- Source `list_open_issues`: the loop walks every index of the collection
once (`fuel` counts the remaining indices, as in `coiLoop`). -/
def list_open_issues (issues : Issues) : Except Err (List Record) × Issues :=
  lowLoop issues issues.length 0 []

/-- The scan of `_find_issue_index`: `processed` holds the records already
scanned (each had its number ensured in place), `idx` the index of the head
of `pending` in the full collection.  Raises IssueNotFoundError after a full
scan without a match. -/
def findLoop : Issues → Int → Issues → Nat → Except Err Nat × Issues
  | [], _, processed, _ => (Except.error Err.notFound, processed)
  | r :: rest, n, processed, idx =>
      match _ensure_issue_number r with
      | Except.error e => (Except.error e, processed ++ r :: rest)
      | Except.ok (num, r') =>
          if num = n then (Except.ok idx, processed ++ r' :: rest)
          else findLoop rest n (processed ++ [r']) (idx + 1)

/-- Source `_find_issue_index`. -/
def _find_issue_index (issues : Issues) (n : Int) : Except Err Nat × Issues :=
  findLoop issues n [] 0

/-- Source `close_issue`, with the index of the mutated record kept so that
`complete_issue` can mirror the Python aliasing (the returned dict is the
collection entry).  Entries are already mutable records, so
`_ensure_mutable_issue` is the plain read `issues[index]`. -/
def close_issue_core (issues : Issues) (n : Int) :
    Except Err (Nat × Record) × Issues :=
  match _find_issue_index issues n with
  | (Except.error e, s) => (Except.error e, s)
  | (Except.ok index, s) =>
      match _ensure_issue_number (s.getD index []) with
      | Except.error e => (Except.error e, s)
      | Except.ok (_, issue1) =>
          let issue2 := _set_state issue1 "closed"
          (Except.ok (index, issue2), s.set index issue2)

/-- Source `close_issue`: the mutated record, or IssueNotFoundError. -/
def close_issue (issues : Issues) (n : Int) : Except Err Record × Issues :=
  match close_issue_core issues n with
  | (Except.error e, s) => (Except.error e, s)
  | (Except.ok (_, r), s) => (Except.ok r, s)

/-- Source `complete_issue`: `close_issue`, then `completed = True` on the
same record (mirrored into the collection through its index). -/
def complete_issue (issues : Issues) (n : Int) : Except Err Record × Issues :=
  match close_issue_core issues n with
  | (Except.error e, s) => (Except.error e, s)
  | (Except.ok (index, r), s) =>
      let r' := rinsert r "completed" (Value.vBool true)
      (Except.ok r', s.set index r')

/-- The loop of `close_implemented_issues`: close each number in input
order, swallowing IssueNotFoundError only. -/
def ciiLoop : List Int → Issues → List Record → Except Err (List Record) × Issues
  | [], issues, acc => (Except.ok acc, issues)
  | n :: rest, issues, acc =>
      match close_issue issues n with
      | (Except.ok r, s) => ciiLoop rest s (acc ++ [r])
      | (Except.error Err.notFound, s) => ciiLoop rest s acc
      | (Except.error e, s) => (Except.error e, s)

/-- Source `close_implemented_issues`. -/
def close_implemented_issues (issues : Issues) (nums : List Int) :
    Except Err (List Record) × Issues :=
  ciiLoop nums issues []

/-- The loop of `complete_open_issues` over collection indices.  The Python
loop runs `index` over the collection, whose length no operation changes;
`fuel` counts the remaining indices (the caller passes the collection
length), so the loop performs exactly the iterations `enumerate` does. -/
def coiLoop (issues : Issues) (target : Option (List Int)) (fuel index : Nat)
    (acc : List Record) : Except Err (List Record) × Issues :=
  match fuel with
  | 0 => (Except.ok acc, issues)
  | fuel' + 1 =>
      if index < issues.length then
        match _ensure_issue_number (issues.getD index []) with
        | Except.error e => (Except.error e, issues)
        | Except.ok (number, issue') =>
            let issues1 := issues.set index issue'
            let skip : Bool :=
              match target with
              | none => false
              | some ts => !ts.contains number
            if skip then coiLoop issues1 target fuel' (index + 1) acc
            else if _is_open issue' then
              match complete_issue issues1 number with
              | (Except.error e, s) => (Except.error e, s)
              | (Except.ok r, s) => coiLoop s target fuel' (index + 1) (acc ++ [r])
            else coiLoop issues1 target fuel' (index + 1) acc
      else (Except.ok acc, issues)

/-- Source `complete_open_issues` (`target = none` means no restriction,
`some ts` the restriction set). -/
def complete_open_issues (issues : Issues) (target : Option (List Int)) :
    Except Err (List Record) × Issues :=
  coiLoop issues target issues.length 0 []

example :
    close_issue [[("number", Value.vInt 2), ("state", Value.vStr "open")]] 2 =
      (Except.ok [("number", Value.vInt 2), ("state", Value.vStr "closed"),
        ("status", Value.vStr "closed"), ("closed", Value.vBool true)],
       [[("number", Value.vInt 2), ("state", Value.vStr "closed"),
        ("status", Value.vStr "closed"), ("closed", Value.vBool true)]]) := by decide

example :
    (list_open_issues [[("number", Value.vInt 1), ("state", Value.vStr "closed")],
      [("number", Value.vInt 2), ("state", Value.vStr "open")],
      [("id", Value.vInt 4), ("closed", Value.vBool false)]]).1 =
      Except.ok [[("number", Value.vInt 2), ("state", Value.vStr "open")],
        [("id", Value.vInt 4), ("closed", Value.vBool false), ("number", Value.vInt 4)]] := by decide

theorem rget_rinsert_self (r : Record) (k : String) (v : Value) :
    rget (rinsert r k v) k = some v := by
  induction r with
  | nil => simp [rinsert, rget]
  | cons hd tl ih =>
      obtain ⟨k', v'⟩ := hd
      by_cases h : k' = k
      · simp [rinsert, rget, h]
      · simp [rinsert, rget, h, ih]

theorem rget_rinsert_ne (r : Record) (k k' : String) (v : Value) (h : k' ≠ k) :
    rget (rinsert r k v) k' = rget r k' := by
  have h' : ¬ (k = k') := fun hh => h hh.symm
  induction r with
  | nil => simp [rinsert, rget, h']
  | cons hd tl ih =>
      obtain ⟨k0, v0⟩ := hd
      by_cases h0 : k0 = k
      · subst h0
        simp [rinsert, rget, h']
      · by_cases h1 : k0 = k'
        · simp [rinsert, rget, h0, h1, h]
        · simp [rinsert, rget, h0, h1, ih]

theorem rinsert_eq_self (r : Record) (k : String) (v : Value) (h : rget r k = some v) :
    rinsert r k v = r := by
  induction r with
  | nil => simp [rget] at h
  | cons hd tl ih =>
      obtain ⟨k0, v0⟩ := hd
      by_cases h0 : k0 = k
      · subst h0
        simp [rget] at h
        simp [rinsert, h]
      · simp [rget, h0] at h
        simp [rinsert, h0, ih h]

theorem rget_append_of_none (l1 l2 : Record) (k : String) (h : rget l1 k = none) :
    rget (l1 ++ l2) k = rget l2 k := by
  induction l1 with
  | nil => simp
  | cons hd tl ih =>
      obtain ⟨k0, v0⟩ := hd
      by_cases h0 : k0 = k
      · simp [rget, h0] at h
      · simp [rget, h0] at h ⊢
        exact ih h

theorem rget_append_of_some (l1 l2 : Record) (k : String) (v : Value)
    (h : rget l1 k = some v) : rget (l1 ++ l2) k = some v := by
  induction l1 with
  | nil => simp [rget] at h
  | cons hd tl ih =>
      obtain ⟨k0, v0⟩ := hd
      by_cases h0 : k0 = k
      · simp [rget, h0] at h ⊢
        exact h
      · simp [rget, h0] at h ⊢
        exact ih h

theorem rsetdefault_of_isSome (r : Record) (k : String) (v : Value)
    (h : (rget r k).isSome) : rsetdefault r k v = r := by
  simp [rsetdefault, h]

theorem rget_rsetdefault_ne (r : Record) (k k' : String) (v : Value) (h : k' ≠ k) :
    rget (rsetdefault r k v) k' = rget r k' := by
  unfold rsetdefault
  by_cases hs : (rget r k).isSome
  · simp [hs]
  · simp [hs]
    have h' : ¬ (k = k') := fun hh => h hh.symm
    cases hr : rget r k' with
    | some w => exact rget_append_of_some _ _ _ _ hr
    | none =>
        rw [rget_append_of_none _ _ _ hr]
        simp [rget, h']

theorem rget_rsetdefault_self (r : Record) (k : String) (v : Value) :
    rget (rsetdefault r k v) k = some ((rget r k).getD v) := by
  unfold rsetdefault
  cases hr : rget r k with
  | some w => simp [hr, rget_append_of_some _ _ _ _ hr]
  | none =>
      simp [hr]
      rw [rget_append_of_none _ _ _ hr]
      simp [rget]

theorem char_toNat_ofNat (n : Nat) (h : n < 55296) : (Char.ofNat n).toNat = n := by
  unfold Char.ofNat
  rw [dif_pos (Or.inl h)]
  simp [Char.ofNatAux, Char.toNat, UInt32.toNat, BitVec.toNat_ofNatLt]

theorem char_eq_iff_toNat (a b : Char) : a = b ↔ a.toNat = b.toNat := by
  constructor
  · intro h; rw [h]
  · intro h
    apply Char.eq_of_val_eq
    exact UInt32.ext h

theorem toLower_toLower (c : Char) : Char.toLower (Char.toLower c) = Char.toLower c := by
  unfold Char.toLower
  by_cases h : 65 ≤ c.toNat ∧ c.toNat ≤ 90
  · rw [if_pos h]
    have h2 : (Char.ofNat (c.toNat + 32)).toNat = c.toNat + 32 := char_toNat_ofNat _ (by omega)
    rw [if_neg (by omega)]
  · rw [if_neg h, if_neg h]

theorem isWhitespace_toLower (c : Char) : (Char.toLower c).isWhitespace = c.isWhitespace := by
  unfold Char.toLower
  by_cases h : 65 ≤ c.toNat ∧ c.toNat ≤ 90
  · rw [if_pos h]
    have h2 : (Char.ofNat (c.toNat + 32)).toNat = c.toNat + 32 := char_toNat_ofNat _ (by omega)
    simp only [Char.isWhitespace, char_eq_iff_toNat, h2]
    rw [show (' ' : Char).toNat = 32 from rfl, show ('\t' : Char).toNat = 9 from rfl,
        show ('\x0d' : Char).toNat = 13 from rfl, show ('\n' : Char).toNat = 10 from rfl]
    have a1 : ¬ (c.toNat + 32 = 32) := by omega
    have a2 : ¬ (c.toNat + 32 = 9) := by omega
    have a3 : ¬ (c.toNat + 32 = 13) := by omega
    have a4 : ¬ (c.toNat + 32 = 10) := by omega
    have b1 : ¬ (c.toNat = 32) := by omega
    have b2 : ¬ (c.toNat = 9) := by omega
    have b3 : ¬ (c.toNat = 13) := by omega
    have b4 : ¬ (c.toNat = 10) := by omega
    simp [a1, a2, a3, a4, b1, b2, b3, b4]
  · rw [if_neg h]

theorem stripList_map_toLower (l : List Char) :
    stripList (l.map Char.toLower) = (stripList l).map Char.toLower := by
  unfold stripList
  have hp : (Char.isWhitespace ∘ Char.toLower) = Char.isWhitespace := by
    funext c
    exact isWhitespace_toLower c
  rw [List.dropWhile_map, hp, ← List.map_reverse, List.dropWhile_map, hp, ← List.map_reverse]

theorem head_dropWhile_false (p : Char → Bool) (l : List Char) (x : Char)
    (h : (l.dropWhile p).head? = some x) : p x = false := by
  induction l with
  | nil => simp [List.dropWhile] at h
  | cons hd tl ih =>
      by_cases hp : p hd
      · simp [List.dropWhile, hp] at h
        exact ih h
      · simp [List.dropWhile, hp] at h
        subst h
        simpa using hp

theorem dropWhile_dropWhile (p : Char → Bool) (l : List Char) :
    (l.dropWhile p).dropWhile p = l.dropWhile p :=
  List.dropWhile_idempotent p l

theorem stripList_idem (l : List Char) : stripList (stripList l) = stripList l := by
  unfold stripList
  set A := (l.dropWhile Char.isWhitespace).reverse.dropWhile Char.isWhitespace with hA
  have h1 : A.reverse.dropWhile Char.isWhitespace = A.reverse := by
    cases hh : A.reverse.head? with
    | none =>
        have hnil : A.reverse = [] := by
          cases hr : A.reverse with
          | nil => rfl
          | cons a t => rw [hr] at hh; simp at hh
        simp [hnil]
    | some x =>
        have hgl : A.getLast? = some x := by
          rw [← List.head?_reverse]
          exact hh
        have hne : A ≠ [] := by
          intro hnil
          rw [hnil] at hgl
          simp at hgl
        have hpre : ((l.dropWhile Char.isWhitespace).reverse).takeWhile Char.isWhitespace ++ A =
            (l.dropWhile Char.isWhitespace).reverse := by
          rw [hA]
          exact List.takeWhile_append_dropWhile _ _
        have hgl2 : ((l.dropWhile Char.isWhitespace).reverse).getLast? = some x := by
          rw [← hpre]
          rw [List.getLast?_append_of_ne_nil _ hne]
          exact hgl
        rw [List.getLast?_reverse] at hgl2
        have hx : Char.isWhitespace x = false :=
          head_dropWhile_false Char.isWhitespace l x hgl2
        cases hr : A.reverse with
        | nil => simp
        | cons a t =>
            rw [hr] at hh
            simp at hh
            subst hh
            simp [List.dropWhile, hx]
  rw [h1, List.reverse_reverse]
  have h2 : A.dropWhile Char.isWhitespace = A := by
    rw [hA]
    exact List.dropWhile_idempotent _ _
  rw [h2]

theorem map_toLower_idem (l : List Char) :
    (l.map Char.toLower).map Char.toLower = l.map Char.toLower := by
  rw [List.map_map]
  apply List.map_congr_left
  intro c _
  exact toLower_toLower c

theorem norm_lower_strip_idem (s : String) :
    lowerStr (stripStr (lowerStr (stripStr s))) = lowerStr (stripStr s) := by
  unfold lowerStr stripStr
  apply congrArg String.mk
  show (stripList (List.map Char.toLower (stripList s.data))).map Char.toLower =
    (stripList s.data).map Char.toLower
  rw [stripList_map_toLower, stripList_idem, map_toLower_idem]

theorem norm_vStr (t : String) :
    _normalise_state (Value.vStr t) = lowerStr (stripStr t) := rfl

theorem rget_set_state_state (r : Record) (s : String) :
    rget (_set_state r s) "state" = some (Value.vStr (_normalise_state (Value.vStr s))) := by
  unfold _set_state
  rw [rget_rinsert_ne _ _ _ _ (by decide), rget_rinsert_ne _ _ _ _ (by decide),
    rget_rinsert_self]

theorem rget_set_state_status (r : Record) (s : String) :
    rget (_set_state r s) "status" = some (Value.vStr (_normalise_state (Value.vStr s))) := by
  unfold _set_state
  rw [rget_rinsert_ne _ _ _ _ (by decide), rget_rinsert_self]

theorem rget_set_state_closed (r : Record) (s : String) :
    rget (_set_state r s) "closed" =
      some (Value.vBool (_normalise_state (Value.vStr s) == "closed")) := by
  unfold _set_state
  rw [rget_rinsert_self]

theorem rget_set_state_other (r : Record) (s : String) (k : String)
    (h1 : k ≠ "state") (h2 : k ≠ "status") (h3 : k ≠ "closed") :
    rget (_set_state r s) k = rget r k := by
  unfold _set_state
  rw [rget_rinsert_ne _ _ _ _ h3, rget_rinsert_ne _ _ _ _ h2, rget_rinsert_ne _ _ _ _ h1]

theorem get_state_congr (r r' : Record)
    (h1 : rget r' "state" = rget r "state") (h2 : rget r' "status" = rget r "status")
    (h3 : rget r' "closed" = rget r "closed")
    (h4 : rget r' "completed" = rget r "completed") :
    _get_state r' = _get_state r := by
  unfold _get_state
  simp only [rgetd, h1, h2, h3, h4]

theorem norm_empty : _normalise_state (Value.vStr "") = "" := by decide

theorem norm_closed : _normalise_state (Value.vStr "closed") = "closed" := by decide

theorem get_state_set_state (r : Record) (s : String) :
    _get_state (_set_state r s) = _normalise_state (Value.vStr s) := by
  unfold _get_state
  simp only [rgetd, rget_set_state_state, rget_set_state_status, Option.getD_some]
  by_cases hn : _normalise_state (Value.vStr s) = ""
  · rw [hn]
    simp [truthy, norm_empty]
  · have ht : truthy (Value.vStr (_normalise_state (Value.vStr s))) = true := by
      simp [truthy, hn]
    rw [if_pos ht]
    show _normalise_state (Value.vStr (_normalise_state (Value.vStr s))) =
      _normalise_state (Value.vStr s)
    rw [norm_vStr, norm_vStr]
    exact norm_lower_strip_idem s

theorem ensure_eq_ok (r : Record) (k : Int) (h : _issue_identifier r = Except.ok k) :
    _ensure_issue_number r = Except.ok (k, ensureRec r) := by
  unfold _ensure_issue_number ensureRec
  rw [h]

theorem ensure_eq_err (r : Record) (e : Err) (h : _issue_identifier r = Except.error e) :
    _ensure_issue_number r = Except.error e := by
  unfold _ensure_issue_number
  rw [h]

theorem ensureRec_of_isSome (r : Record) (h : (rget r "number").isSome) :
    ensureRec r = r := by
  unfold ensureRec
  cases hi : _issue_identifier r with
  | error e => rfl
  | ok k => exact rsetdefault_of_isSome _ _ _ h

theorem ident_ensureRec (r : Record) (k : Int) (h : _issue_identifier r = Except.ok k) :
    _issue_identifier (ensureRec r) = Except.ok k := by
  cases hn : rget r "number" with
  | some v =>
      rw [ensureRec_of_isSome r (by simp [hn])]
      exact h
  | none =>
      unfold ensureRec
      rw [h]
      unfold rsetdefault
      rw [hn]
      simp only [Option.isSome_none, Bool.false_eq_true, if_false]
      show findIdentAux identifierKeys (r ++ [("number", Value.vInt k)]) = Except.ok k
      unfold identifierKeys findIdentAux
      rw [rget_append_of_none _ _ _ hn]
      simp [rget, pyInt]

theorem number_isSome_ensureRec (r : Record) (k : Int)
    (h : _issue_identifier r = Except.ok k) : (rget (ensureRec r) "number").isSome := by
  unfold ensureRec
  rw [h]
  rw [rget_rsetdefault_self]
  rfl

theorem ensureRec_idem (r : Record) : ensureRec (ensureRec r) = ensureRec r := by
  cases hi : _issue_identifier r with
  | error e =>
      have he : ensureRec r = r := by
        unfold ensureRec
        rw [hi]
      rw [he, he]
  | ok k =>
      apply ensureRec_of_isSome
      exact number_isSome_ensureRec r k hi

theorem rget_ensureRec_ne (r : Record) (k' : String) (h : k' ≠ "number") :
    rget (ensureRec r) k' = rget r k' := by
  unfold ensureRec
  cases hi : _issue_identifier r with
  | error e => rfl
  | ok k => exact rget_rsetdefault_ne _ _ _ _ h

theorem get_state_ensureRec (r : Record) : _get_state (ensureRec r) = _get_state r :=
  get_state_congr _ _ (rget_ensureRec_ne r _ (by decide)) (rget_ensureRec_ne r _ (by decide))
    (rget_ensureRec_ne r _ (by decide)) (rget_ensureRec_ne r _ (by decide))

theorem is_open_ensureRec (r : Record) : _is_open (ensureRec r) = _is_open r := by
  unfold _is_open
  rw [get_state_ensureRec]

theorem ident_congr (r r' : Record)
    (h1 : rget r' "number" = rget r "number") (h2 : rget r' "id" = rget r "id")
    (h3 : rget r' "issue_id" = rget r "issue_id")
    (h4 : rget r' "issueNumber" = rget r "issueNumber") :
    _issue_identifier r' = _issue_identifier r := by
  simp only [_issue_identifier, identifierKeys, findIdentAux, h1, h2, h3, h4]

theorem ident_set_state (r : Record) (s : String) :
    _issue_identifier (_set_state r s) = _issue_identifier r :=
  ident_congr _ _ (rget_set_state_other r s _ (by decide) (by decide) (by decide))
    (rget_set_state_other r s _ (by decide) (by decide) (by decide))
    (rget_set_state_other r s _ (by decide) (by decide) (by decide))
    (rget_set_state_other r s _ (by decide) (by decide) (by decide))

theorem ident_closeRec (r : Record) (k : Int) (h : _issue_identifier r = Except.ok k) :
    _issue_identifier (closeRec r) = Except.ok k := by
  unfold closeRec
  rw [ident_set_state]
  exact ident_ensureRec r k h

theorem ident_completeRec (r : Record) (k : Int) (h : _issue_identifier r = Except.ok k) :
    _issue_identifier (completeRec r) = Except.ok k := by
  unfold completeRec
  rw [ident_congr (closeRec r) _ (rget_rinsert_ne _ _ _ _ (by decide))
    (rget_rinsert_ne _ _ _ _ (by decide)) (rget_rinsert_ne _ _ _ _ (by decide))
    (rget_rinsert_ne _ _ _ _ (by decide))]
  exact ident_closeRec r k h

theorem number_isSome_closeRec (r : Record) (k : Int)
    (h : _issue_identifier r = Except.ok k) : (rget (closeRec r) "number").isSome := by
  unfold closeRec
  rw [rget_set_state_other _ _ _ (by decide) (by decide) (by decide)]
  exact number_isSome_ensureRec r k h

theorem number_isSome_completeRec (r : Record) (k : Int)
    (h : _issue_identifier r = Except.ok k) : (rget (completeRec r) "number").isSome := by
  unfold completeRec
  rw [rget_rinsert_ne _ _ _ _ (by decide)]
  exact number_isSome_closeRec r k h

theorem get_state_closeRec (r : Record) : _get_state (closeRec r) = "closed" := by
  unfold closeRec
  rw [get_state_set_state, norm_closed]

theorem get_state_completeRec (r : Record) : _get_state (completeRec r) = "closed" := by
  unfold completeRec
  unfold _get_state
  have hst : rget (rinsert (closeRec r) "completed" (Value.vBool true)) "state" =
      rget (closeRec r) "state" := rget_rinsert_ne _ _ _ _ (by decide)
  unfold closeRec at hst ⊢
  rw [rget_set_state_state] at hst
  simp only [rgetd, hst, norm_closed, Option.getD_some]
  simp [truthy, _normalise_state]
  decide

theorem is_open_closeRec (r : Record) : _is_open (closeRec r) = false := by
  unfold _is_open
  rw [get_state_closeRec]
  decide

theorem is_open_completeRec (r : Record) : _is_open (completeRec r) = false := by
  unfold _is_open
  rw [get_state_completeRec]
  decide

theorem findLoop_skip (pre rest : Issues) (n : Int) (processed : Issues) (idx : Nat)
    (h : ∀ r ∈ pre, ∃ m, _issue_identifier r = Except.ok m ∧ m ≠ n) :
    findLoop (pre ++ rest) n processed idx =
      findLoop rest n (processed ++ pre.map ensureRec) (idx + pre.length) := by
  induction pre generalizing processed idx with
  | nil => simp
  | cons a pre' ih =>
      obtain ⟨m, hm, hmn⟩ := h a (by simp)
      have h' : ∀ r ∈ pre', ∃ m, _issue_identifier r = Except.ok m ∧ m ≠ n := by
        intro r hr
        exact h r (by simp [hr])
      have step : findLoop (a :: (pre' ++ rest)) n processed idx =
          (match _ensure_issue_number a with
           | Except.error e => (Except.error e, processed ++ a :: (pre' ++ rest))
           | Except.ok (num, r') =>
               if num = n then (Except.ok idx, processed ++ r' :: (pre' ++ rest))
               else findLoop (pre' ++ rest) n (processed ++ [r']) (idx + 1)) := rfl
      show findLoop (a :: (pre' ++ rest)) n processed idx = _
      rw [step, ensure_eq_ok a m hm]
      show (if m = n then (Except.ok idx, processed ++ ensureRec a :: (pre' ++ rest))
        else findLoop (pre' ++ rest) n (processed ++ [ensureRec a]) (idx + 1)) = _
      rw [if_neg hmn]
      rw [ih (processed ++ [ensureRec a]) (idx + 1) h']
      rw [List.append_assoc]
      show findLoop rest n (processed ++ ensureRec a :: List.map ensureRec pre')
          (idx + 1 + pre'.length) = findLoop rest n
          (processed ++ List.map ensureRec (a :: pre')) (idx + (a :: pre').length)
      have harith : idx + 1 + pre'.length = idx + (a :: pre').length := by
        simp [Nat.add_assoc, Nat.add_comm 1 pre'.length]
      rw [harith]
      rfl

theorem findLoop_found (a : Record) (rest : Issues) (n : Int) (processed : Issues)
    (idx : Nat) (ha : _issue_identifier a = Except.ok n) :
    findLoop (a :: rest) n processed idx = (Except.ok idx, processed ++ ensureRec a :: rest) := by
  unfold findLoop
  rw [ensure_eq_ok a n ha]
  simp

theorem findLoop_err (a : Record) (rest : Issues) (n : Int) (processed : Issues)
    (idx : Nat) (e : Err) (ha : _issue_identifier a = Except.error e) :
    findLoop (a :: rest) n processed idx = (Except.error e, processed ++ a :: rest) := by
  unfold findLoop
  rw [ensure_eq_err a e ha]

theorem find_none (issues : Issues) (n : Int)
    (h : ∀ r ∈ issues, ∃ m, _issue_identifier r = Except.ok m ∧ m ≠ n) :
    _find_issue_index issues n = (Except.error Err.notFound, issues.map ensureRec) := by
  unfold _find_issue_index
  have := findLoop_skip issues [] n [] 0 (by simpa using h)
  rw [List.append_nil] at this
  rw [this]
  unfold findLoop
  simp

theorem find_found (pre : Issues) (a : Record) (post : Issues) (n : Int)
    (hpre : ∀ r ∈ pre, ∃ m, _issue_identifier r = Except.ok m ∧ m ≠ n)
    (ha : _issue_identifier a = Except.ok n) :
    _find_issue_index (pre ++ a :: post) n =
      (Except.ok pre.length, pre.map ensureRec ++ ensureRec a :: post) := by
  unfold _find_issue_index
  rw [findLoop_skip pre (a :: post) n [] 0 hpre]
  rw [findLoop_found a post n _ _ ha]
  simp

theorem find_err (pre : Issues) (a : Record) (post : Issues) (n : Int) (e : Err)
    (hpre : ∀ r ∈ pre, ∃ m, _issue_identifier r = Except.ok m ∧ m ≠ n)
    (ha : _issue_identifier a = Except.error e) :
    _find_issue_index (pre ++ a :: post) n =
      (Except.error e, pre.map ensureRec ++ a :: post) := by
  unfold _find_issue_index
  rw [findLoop_skip pre (a :: post) n [] 0 hpre]
  rw [findLoop_err a post n _ _ e ha]
  simp

theorem getD_append_middle (l1 l2 : Issues) (x : Record) :
    (l1 ++ x :: l2).getD l1.length [] = x := by
  induction l1 with
  | nil => rfl
  | cons hd tl ih => simpa using ih

theorem set_append_middle (l1 l2 : Issues) (x y : Record) :
    (l1 ++ x :: l2).set l1.length y = l1 ++ y :: l2 := by
  rw [List.set_append_right _ _ (Nat.le_refl _)]
  simp

theorem close_core_none (issues : Issues) (n : Int)
    (h : ∀ r ∈ issues, ∃ m, _issue_identifier r = Except.ok m ∧ m ≠ n) :
    close_issue_core issues n = (Except.error Err.notFound, issues.map ensureRec) := by
  unfold close_issue_core
  rw [find_none issues n h]

theorem close_none (issues : Issues) (n : Int)
    (h : ∀ r ∈ issues, ∃ m, _issue_identifier r = Except.ok m ∧ m ≠ n) :
    close_issue issues n = (Except.error Err.notFound, issues.map ensureRec) := by
  unfold close_issue
  rw [close_core_none issues n h]

theorem close_core_found (pre : Issues) (a : Record) (post : Issues) (n : Int)
    (hpre : ∀ r ∈ pre, ∃ m, _issue_identifier r = Except.ok m ∧ m ≠ n)
    (ha : _issue_identifier a = Except.ok n) :
    close_issue_core (pre ++ a :: post) n =
      (Except.ok (pre.length, closeRec a), pre.map ensureRec ++ closeRec a :: post) := by
  unfold close_issue_core
  rw [find_found pre a post n hpre ha]
  have hg : (pre.map ensureRec ++ ensureRec a :: post).getD pre.length ([] : Record) =
      ensureRec a := by
    have h0 := getD_append_middle (pre.map ensureRec) post (ensureRec a)
    rw [List.length_map] at h0
    exact h0
  show (match _ensure_issue_number ((pre.map ensureRec ++ ensureRec a :: post).getD pre.length [])
      with
    | Except.error e => (Except.error e, pre.map ensureRec ++ ensureRec a :: post)
    | Except.ok (_, issue1) =>
        (Except.ok (pre.length, _set_state issue1 "closed"),
          (pre.map ensureRec ++ ensureRec a :: post).set pre.length (_set_state issue1 "closed"))) =
    _
  rw [hg]
  rw [ensure_eq_ok (ensureRec a) n (ident_ensureRec a n ha), ensureRec_idem]
  show (Except.ok (pre.length, closeRec a),
      (pre.map ensureRec ++ ensureRec a :: post).set pre.length (closeRec a)) = _
  have hs := set_append_middle (pre.map ensureRec) post (ensureRec a) (closeRec a)
  rw [List.length_map] at hs
  rw [hs]

theorem close_found (pre : Issues) (a : Record) (post : Issues) (n : Int)
    (hpre : ∀ r ∈ pre, ∃ m, _issue_identifier r = Except.ok m ∧ m ≠ n)
    (ha : _issue_identifier a = Except.ok n) :
    close_issue (pre ++ a :: post) n =
      (Except.ok (closeRec a), pre.map ensureRec ++ closeRec a :: post) := by
  unfold close_issue
  rw [close_core_found pre a post n hpre ha]

theorem complete_found (pre : Issues) (a : Record) (post : Issues) (n : Int)
    (hpre : ∀ r ∈ pre, ∃ m, _issue_identifier r = Except.ok m ∧ m ≠ n)
    (ha : _issue_identifier a = Except.ok n) :
    complete_issue (pre ++ a :: post) n =
      (Except.ok (completeRec a), pre.map ensureRec ++ completeRec a :: post) := by
  unfold complete_issue
  rw [close_core_found pre a post n hpre ha]
  show (Except.ok (rinsert (closeRec a) "completed" (Value.vBool true)),
      (pre.map ensureRec ++ closeRec a :: post).set pre.length
        (rinsert (closeRec a) "completed" (Value.vBool true))) = _
  have hs := set_append_middle (pre.map ensureRec) post (closeRec a)
    (rinsert (closeRec a) "completed" (Value.vBool true))
  rw [List.length_map] at hs
  rw [hs]
  rfl

theorem close_err (pre : Issues) (a : Record) (post : Issues) (n : Int) (e : Err)
    (hpre : ∀ r ∈ pre, ∃ m, _issue_identifier r = Except.ok m ∧ m ≠ n)
    (ha : _issue_identifier a = Except.error e) :
    close_issue (pre ++ a :: post) n = (Except.error e, pre.map ensureRec ++ a :: post) := by
  unfold close_issue close_issue_core
  rw [find_err pre a post n e hpre ha]

theorem complete_err (pre : Issues) (a : Record) (post : Issues) (n : Int) (e : Err)
    (hpre : ∀ r ∈ pre, ∃ m, _issue_identifier r = Except.ok m ∧ m ≠ n)
    (ha : _issue_identifier a = Except.error e) :
    complete_issue (pre ++ a :: post) n = (Except.error e, pre.map ensureRec ++ a :: post) := by
  unfold complete_issue close_issue_core
  rw [find_err pre a post n e hpre ha]

theorem ident_keyError_of_none (r : Record)
    (h1 : rget r "number" = none) (h2 : rget r "id" = none)
    (h3 : rget r "issue_id" = none) (h4 : rget r "issueNumber" = none) :
    _issue_identifier r = Except.error Err.keyError := by
  simp only [_issue_identifier, identifierKeys, findIdentAux, h1, h2, h3, h4]

theorem pyInt_ne_notFound (v : Value) : pyInt v ≠ Except.error Err.notFound := by
  cases v with
  | vNone => simp [pyInt]
  | vBool b => simp [pyInt]
  | vInt n => simp [pyInt]
  | vStr s =>
      simp only [pyInt]
      cases parseIntList (stripList s.data) with
      | none => simp
      | some n => simp

theorem findIdentAux_ne_notFound (ks : List String) (r : Record) :
    findIdentAux ks r ≠ Except.error Err.notFound := by
  induction ks with
  | nil => simp [findIdentAux]
  | cons k ks ih =>
      simp only [findIdentAux]
      cases rget r k with
      | some v => exact pyInt_ne_notFound v
      | none => exact ih

theorem ident_ne_notFound (r : Record) :
    _issue_identifier r ≠ Except.error Err.notFound :=
  findIdentAux_ne_notFound identifierKeys r

theorem lowLoop_state (issues : Issues) (fuel : Nat) :
    ∀ (index : Nat) (acc : List Record), (lowLoop issues fuel index acc).2 = issues := by
  induction fuel with
  | zero => intro index acc; rfl
  | succ fuel' ih =>
      intro index acc
      show (if index < issues.length then _ else (Except.ok acc, issues)).2 = issues
      by_cases h : index < issues.length
      · rw [if_pos h]
        show (if _is_open (issues.getD index []) then _ else
          lowLoop issues fuel' (index + 1) acc).2 = issues
        by_cases ho : _is_open (issues.getD index [])
        · rw [if_pos ho]
          cases hi : _issue_identifier (issues.getD index []) with
          | ok k =>
              show (lowLoop issues fuel' (index + 1)
                (acc ++ [rsetdefault (issues.getD index []) "number" (Value.vInt k)])).2 = issues
              exact ih _ _
          | error e =>
              cases e with
              | keyError =>
                  show (lowLoop issues fuel' (index + 1) (acc ++ [issues.getD index []])).2 = issues
                  exact ih _ _
              | valueError => rfl
              | notFound => rfl
        · rw [if_neg ho]
          exact ih _ _
      · rw [if_neg h]

theorem lowLoop_ok (issues : Issues)
    (hok : ∀ r ∈ issues, _issue_identifier r ≠ Except.error Err.valueError) (fuel : Nat) :
    ∀ (index : Nat) (acc : List Record), issues.length ≤ index + fuel →
      (lowLoop issues fuel index acc).1 =
        Except.ok (acc ++ ((issues.drop index).filter _is_open).map copyRec) := by
  induction fuel with
  | zero =>
      intro index acc hle
      have hdrop : issues.drop index = [] := List.drop_eq_nil_of_le (by omega)
      show Except.ok acc = _
      rw [hdrop]
      simp
  | succ fuel' ih =>
      intro index acc hle
      show (if index < issues.length then _ else (Except.ok acc, issues)).1 = _
      by_cases h : index < issues.length
      · rw [if_pos h]
        have hget : issues.getD index [] = issues[index] := List.getD_eq_getElem issues [] h
        have hdrop : issues.drop index = issues[index] :: issues.drop (index + 1) :=
          List.drop_eq_getElem_cons h
        rw [hget, hdrop]
        by_cases ho : _is_open issues[index]
        · rw [if_pos ho]
          cases hi : _issue_identifier issues[index] with
          | ok k =>
              show (lowLoop issues fuel' (index + 1)
                (acc ++ [rsetdefault issues[index] "number" (Value.vInt k)])).1 = _
              rw [ih (index + 1) _ (by omega)]
              have hc : copyRec issues[index] = rsetdefault issues[index] "number" (Value.vInt k) := by
                unfold copyRec
                rw [hi]
              rw [List.filter_cons, if_pos ho, List.map_cons, hc, List.append_assoc]
              rfl
          | error e =>
              cases e with
              | keyError =>
                  show (lowLoop issues fuel' (index + 1) (acc ++ [issues[index]])).1 = _
                  rw [ih (index + 1) _ (by omega)]
                  have hc : copyRec issues[index] = issues[index] := by
                    unfold copyRec
                    rw [hi]
                  rw [List.filter_cons, if_pos ho, List.map_cons, hc, List.append_assoc]
                  rfl
              | valueError =>
                  exact absurd hi (hok issues[index] (List.getElem_mem h))
              | notFound => exact absurd hi (ident_ne_notFound issues[index])
        · rw [if_neg ho]
          rw [ih (index + 1) _ (by omega)]
          rw [List.filter_cons, if_neg (by simp [ho])]
      · rw [if_neg h]
        have hdrop : issues.drop index = [] := List.drop_eq_nil_of_le (by omega)
        rw [hdrop]
        simp

theorem completeRec_ensureRec (r : Record) : completeRec (ensureRec r) = completeRec r := by
  unfold completeRec closeRec
  rw [ensureRec_idem]

theorem ensureRec_completeRec (r : Record) (k : Int)
    (h : _issue_identifier r = Except.ok k) : ensureRec (completeRec r) = completeRec r :=
  ensureRec_of_isSome _ (number_isSome_completeRec r k h)

theorem forall2_mem_left {α β : Type} {R : α → β → Prop} {l1 : List α} {l2 : List β}
    (h : List.Forall₂ R l1 l2) {a : α} (ha : a ∈ l1) : ∃ b ∈ l2, R a b := by
  induction h with
  | nil => simp at ha
  | cons hr hrest ih =>
      rcases List.mem_cons.mp ha with h1 | h2
      · subst h1
        exact ⟨_, by simp, hr⟩
      · obtain ⟨b, hb, hab⟩ := ih h2
        exact ⟨b, by simp [hb], hab⟩

theorem map_ensureRec_eq_self (done : Issues) (ids : List Int)
    (h : List.Forall₂ (fun d k => _issue_identifier d = Except.ok k ∧ ensureRec d = d) done ids) :
    done.map ensureRec = done := by
  induction h with
  | nil => rfl
  | cons hr hrest ih => simp [hr.2, ih]

theorem coiLoop_c8 (r : Record) (hr : _issue_identifier r = Except.error Err.keyError) :
    ∀ (rest done : Issues) (acc : List Record),
      (∀ p ∈ rest, (∃ m, _issue_identifier p = Except.ok m) ∧ _is_open p = false) →
      (coiLoop (done ++ (rest ++ [r])) none (rest.length + 1) done.length acc).1 =
        Except.error Err.keyError := by
  intro rest
  induction rest with
  | nil =>
      intro done acc hrest
      simp only [List.nil_append]
      show (if done.length < (done ++ [r]).length then _ else
        (Except.ok acc, done ++ [r])).1 = _
      rw [if_pos (by simp)]
      have hg : (done ++ [r]).getD done.length ([] : Record) = r :=
        getD_append_middle done [] r
      rw [hg, ensure_eq_err r Err.keyError hr]
  | cons p rest' ih =>
      intro done acc hrest
      obtain ⟨⟨m, hm⟩, ho⟩ := hrest p (by simp)
      have hrest' : ∀ q ∈ rest', (∃ m, _issue_identifier q = Except.ok m) ∧ _is_open q = false := by
        intro q hq
        exact hrest q (by simp [hq])
      have hsplit : done ++ ((p :: rest') ++ [r]) = done ++ p :: (rest' ++ [r]) := by simp
      rw [hsplit]
      show (if done.length < (done ++ p :: (rest' ++ [r])).length then _ else
        (Except.ok acc, done ++ p :: (rest' ++ [r]))).1 = _
      rw [if_pos (by simp)]
      rw [getD_append_middle done (rest' ++ [r]) p]
      rw [ensure_eq_ok p m hm]
      show (if (false : Bool) then _ else
        if _is_open (ensureRec p) then _ else
          coiLoop ((done ++ p :: (rest' ++ [r])).set done.length (ensureRec p)) none
            (rest'.length + 1) (done.length + 1) acc).1 = _
      rw [if_neg (by simp)]
      rw [is_open_ensureRec, ho]
      simp only [Bool.false_eq_true, if_false]
      rw [set_append_middle done (rest' ++ [r]) p (ensureRec p)]
      have hre : done ++ ensureRec p :: (rest' ++ [r]) = (done ++ [ensureRec p]) ++ (rest' ++ [r]) := by
        simp
      have hlen : done.length + 1 = (done ++ [ensureRec p]).length := by simp
      rw [hre, hlen]
      exact ih (done ++ [ensureRec p]) acc hrest'

theorem forall2_append {α β : Type} {R : α → β → Prop} {l1 l3 : List α} {l2 l4 : List β}
    (h1 : List.Forall₂ R l1 l2) (h2 : List.Forall₂ R l3 l4) :
    List.Forall₂ R (l1 ++ l3) (l2 ++ l4) := by
  induction h1 with
  | nil => simpa using h2
  | cons hr hrest ih => exact List.Forall₂.cons hr ih

theorem coiLoop_c3 {rest : Issues} {ids_rest : List Int}
    (hrest : List.Forall₂ (fun r k => _issue_identifier r = Except.ok k) rest ids_rest) :
    ∀ (done : Issues) (ids_done : List Int) (acc : List Record),
      List.Forall₂ (fun d k => _issue_identifier d = Except.ok k ∧ ensureRec d = d) done ids_done →
      (ids_done ++ ids_rest).Nodup →
      coiLoop (done ++ rest) none rest.length done.length acc =
        (Except.ok (acc ++ (rest.filter _is_open).map completeRec),
         done ++ rest.map finalRec) := by
  induction hrest with
  | nil =>
      intro done ids_done acc hdone hnd
      show (Except.ok acc, done ++ []) = _
      simp
  | @cons p b l1 l2 hpk hrest' ih =>
      intro done ids_done acc hdone hnd
      have hbnotin : b ∉ ids_done := by
        rcases List.nodup_append.mp hnd with ⟨_, _, hdisj⟩
        intro hb
        exact hdisj hb (by simp)
      have hpre : ∀ d ∈ done, ∃ m, _issue_identifier d = Except.ok m ∧ m ≠ b := by
        intro d hd
        obtain ⟨m, hmmem, hid, _⟩ := forall2_mem_left hdone hd
        exact ⟨m, hid, fun he => hbnotin (he ▸ hmmem)⟩
      have hnd' : ((ids_done ++ [b]) ++ l2).Nodup := by
        rw [List.append_assoc, List.singleton_append]
        exact hnd
      show coiLoop (done ++ p :: l1) none (l1.length + 1) done.length acc = _
      show (if done.length < (done ++ p :: l1).length then _ else
        (Except.ok acc, done ++ p :: l1)) = _
      rw [if_pos (by simp)]
      rw [getD_append_middle done l1 p]
      rw [ensure_eq_ok p b hpk]
      show (if (false : Bool) then _ else
        if _is_open (ensureRec p) then
          (match complete_issue ((done ++ p :: l1).set done.length (ensureRec p)) b with
           | (Except.error e, s) => (Except.error e, s)
           | (Except.ok r, s) => coiLoop s none l1.length (done.length + 1) (acc ++ [r]))
        else coiLoop ((done ++ p :: l1).set done.length (ensureRec p)) none
          l1.length (done.length + 1) acc) = _
      rw [if_neg (by simp)]
      rw [is_open_ensureRec]
      rw [set_append_middle done l1 p (ensureRec p)]
      by_cases ho : _is_open p
      · rw [if_pos ho]
        rw [complete_found done (ensureRec p) l1 b hpre (ident_ensureRec p b hpk)]
        rw [map_ensureRec_eq_self done ids_done hdone, completeRec_ensureRec]
        show coiLoop (done ++ completeRec p :: l1) none l1.length (done.length + 1)
          (acc ++ [completeRec p]) = _
        have hre : done ++ completeRec p :: l1 = (done ++ [completeRec p]) ++ l1 := by simp
        have hlen : done.length + 1 = (done ++ [completeRec p]).length := by simp
        rw [hre, hlen]
        have hdone' : List.Forall₂
            (fun d k => _issue_identifier d = Except.ok k ∧ ensureRec d = d)
            (done ++ [completeRec p]) (ids_done ++ [b]) :=
          forall2_append hdone (List.Forall₂.cons
            ⟨ident_completeRec p b hpk, ensureRec_completeRec p b hpk⟩ List.Forall₂.nil)
        rw [ih (done ++ [completeRec p]) (ids_done ++ [b]) (acc ++ [completeRec p]) hdone' hnd']
        have hfin : finalRec p = completeRec p := by
          unfold finalRec
          rw [if_pos ho]
        simp [List.filter_cons, ho, hfin]
      · rw [if_neg ho]
        show coiLoop (done ++ ensureRec p :: l1) none l1.length (done.length + 1) acc = _
        have hre : done ++ ensureRec p :: l1 = (done ++ [ensureRec p]) ++ l1 := by simp
        have hlen : done.length + 1 = (done ++ [ensureRec p]).length := by simp
        rw [hre, hlen]
        have hdone' : List.Forall₂
            (fun d k => _issue_identifier d = Except.ok k ∧ ensureRec d = d)
            (done ++ [ensureRec p]) (ids_done ++ [b]) :=
          forall2_append hdone (List.Forall₂.cons
            ⟨ident_ensureRec p b hpk, ensureRec_idem p⟩ List.Forall₂.nil)
        rw [ih (done ++ [ensureRec p]) (ids_done ++ [b]) acc hdone' hnd']
        have hfin : finalRec p = ensureRec p := by
          unfold finalRec
          rw [if_neg ho]
        have hfo : _is_open p = false := by
          simpa using ho
        simp [List.filter_cons, hfo, hfin]

/-- C1, counterexample: on the one-record collection whose record has only an
`id` field, `close_issue` with the unknown number 99 does raise the not-found
condition, but the collection is not exactly as it was before the call: the
scan has written a `number` field into the record. -/
theorem C1_counterexample :
    close_issue [[("id", Value.vInt 4)]] 99 =
      (Except.error Err.notFound, [[("id", Value.vInt 4), ("number", Value.vInt 4)]]) ∧
    [[("id", Value.vInt 4), ("number", Value.vInt 4)]] ≠ [[("id", Value.vInt 4)]] := by
  decide

/-- C1, amended: when every record of the collection resolves to an
identifier different from `n`, `close_issue(collection, n)` raises the
not-found condition, and the collection afterwards is the original one with
each record's canonical `number` field ensured (records that already had a
`number` field are exactly unchanged). -/
theorem C1_close_issue_unknown (issues : Issues) (n : Int)
    (h : ∀ r ∈ issues, ∃ m, _issue_identifier r = Except.ok m ∧ m ≠ n) :
    close_issue issues n = (Except.error Err.notFound, issues.map ensureRec) ∧
    ∀ r ∈ issues, (rget r "number").isSome → ensureRec r = r := by
  refine ⟨close_none issues n h, ?_⟩
  intro r _ hr
  exact ensureRec_of_isSome r hr

/-- C1, witness: the amended statement evaluated on the concrete collection
of the counterexample. -/
theorem C1_witness :
    close_issue [[("id", Value.vInt 4)]] 99 =
      (Except.error Err.notFound, [[("id", Value.vInt 4)]].map ensureRec) := by
  refine (C1_close_issue_unknown [[("id", Value.vInt 4)]] 99 ?_).1
  intro r hr
  have hr' : r = [("id", Value.vInt 4)] := by simpa using hr
  subst hr'
  exact ⟨4, by decide, by decide⟩

/-- C2: for every record and state string, after `set_state(record, s)` the
state read back by `get_state` is `normalize_state(s)` and the `closed`
field holds exactly the boolean `normalize_state(s) == "closed"`. -/
theorem C2_set_get_state_roundtrip (r : Record) (s : String) :
    _get_state (_set_state r s) = _normalise_state (Value.vStr s) ∧
    rgetd (_set_state r s) "closed" =
      Value.vBool (_normalise_state (Value.vStr s) == "closed") := by
  refine ⟨get_state_set_state r s, ?_⟩
  unfold rgetd
  rw [rget_set_state_closed]
  rfl

/-- C5, counterexample: on the collection holding the single open record
whose `number` field is the non-numeric string "x", `list_open_issues` does
not return the open records at all: the int() coercion raises and the error
propagates (only KeyError is swallowed). -/
theorem C5_counterexample :
    list_open_issues [[("number", Value.vStr "x")]] =
      (Except.error Err.valueError, [[("number", Value.vStr "x")]]) ∧
    _is_open [("number", Value.vStr "x")] = true := by
  decide

/-- C5, amended: when no record has a present identifier field that fails
integer coercion, `list_open_issues` returns exactly the records whose
`is_open` is true, in the collection's original order, each one the shallow
copy with its identifier setdefault-ed into `number` when an identifier
field is present (the copy is returned without a `number` key when none is),
and the source collection is returned unchanged. -/
theorem C5_list_open_issues (issues : Issues)
    (h : ∀ r ∈ issues, _issue_identifier r ≠ Except.error Err.valueError) :
    (list_open_issues issues).1 =
      Except.ok ((issues.filter _is_open).map copyRec) ∧
    (list_open_issues issues).2 = issues := by
  constructor
  · unfold list_open_issues
    rw [lowLoop_ok issues h issues.length 0 [] (by omega)]
    simp
  · exact lowLoop_state issues issues.length 0 []

/-- C5, witness: the amended statement evaluated on the spec's concrete
scenario collection. -/
theorem C5_witness :
    (list_open_issues [[("number", Value.vInt 1), ("state", Value.vStr "closed")],
      [("number", Value.vInt 2), ("state", Value.vStr "open")],
      [("id", Value.vInt 4), ("closed", Value.vBool false)]]).1 =
      Except.ok (([[("number", Value.vInt 1), ("state", Value.vStr "closed")],
        [("number", Value.vInt 2), ("state", Value.vStr "open")],
        [("id", Value.vInt 4), ("closed", Value.vBool false)]].filter _is_open).map copyRec) := by
  refine (C5_list_open_issues _ ?_).1
  intro r hr
  simp only [List.mem_cons, List.not_mem_nil, or_false] at hr
  rcases hr with h1 | h2 | h3
  · subst h1; decide
  · subst h2; decide
  · subst h3; decide

/-- C7: `resolve_identifier` probes `number`, `id`, `issue_id`,
`issueNumber` in that fixed order, coerces the first present field with
int(), and raises the missing-identifier KeyError when none is present. -/
theorem C7_resolve_identifier (r : Record) :
    _issue_identifier r =
      (if (rget r "number").isSome then pyInt (rgetd r "number")
       else if (rget r "id").isSome then pyInt (rgetd r "id")
       else if (rget r "issue_id").isSome then pyInt (rgetd r "issue_id")
       else if (rget r "issueNumber").isSome then pyInt (rgetd r "issueNumber")
       else Except.error Err.keyError) := by
  unfold _issue_identifier identifierKeys
  cases h1 : rget r "number" with
  | some v => simp [findIdentAux, h1, rgetd]
  | none =>
      cases h2 : rget r "id" with
      | some v => simp [findIdentAux, h1, h2, rgetd]
      | none =>
          cases h3 : rget r "issue_id" with
          | some v => simp [findIdentAux, h1, h2, h3, rgetd]
          | none =>
              cases h4 : rget r "issueNumber" with
              | some v => simp [findIdentAux, h1, h2, h3, h4, rgetd]
              | none => simp [findIdentAux, h1, h2, h3, h4]

/-- C10: `list_open_issues` never mutates the input collection: the
collection state after the call is exactly the input collection (every
setdefault in the loop lands on the copies it returns, never on the
collection's own records). -/
theorem C10_no_mutation (issues : Issues) :
    (list_open_issues issues).2 = issues :=
  lowLoop_state issues issues.length 0 []

theorem close_ok_shape (issues : Issues) (n : Int) (r : Record) (s : Issues)
    (h : close_issue issues n = (Except.ok r, s)) :
    ∃ x, r = _set_state x "closed" := by
  unfold close_issue close_issue_core at h
  rcases hf : _find_issue_index issues n with ⟨res, st⟩
  rw [hf] at h
  cases res with
  | error e => simp at h
  | ok idx =>
      dsimp only at h
      rcases he : _ensure_issue_number (st.getD idx []) with e | ⟨m, issue1⟩
      · rw [he] at h
        simp at h
      · rw [he] at h
        simp at h
        exact ⟨issue1, h.1.symm⟩

theorem complete_ok_shape (issues : Issues) (n : Int) (r : Record) (s : Issues)
    (h : complete_issue issues n = (Except.ok r, s)) :
    ∃ x, r = rinsert (_set_state x "closed") "completed" (Value.vBool true) := by
  unfold complete_issue at h
  rcases hc : close_issue_core issues n with ⟨res, st⟩
  rw [hc] at h
  cases res with
  | error e => simp at h
  | ok pr =>
      obtain ⟨idx, rr⟩ := pr
      simp at h
      obtain ⟨x, hx⟩ := close_ok_shape issues n rr st (by
        unfold close_issue
        rw [hc])
      exact ⟨x, by rw [← h.1, hx]⟩

theorem set_state_consistent (x : Record) (s : String) :
    rgetd (_set_state x s) "state" = rgetd (_set_state x s) "status" ∧
    rgetd (_set_state x s) "closed" =
      Value.vBool (rgetd (_set_state x s) "state" == Value.vStr "closed") := by
  unfold rgetd
  rw [rget_set_state_state, rget_set_state_status, rget_set_state_closed]
  refine ⟨rfl, ?_⟩
  by_cases hcl : _normalise_state (Value.vStr s) = "closed"
  · simp [hcl]
  · simp [hcl]

theorem completed_flag_consistent (x : Record) (s : String) :
    rgetd (rinsert (_set_state x s) "completed" (Value.vBool true)) "state" =
      rgetd (rinsert (_set_state x s) "completed" (Value.vBool true)) "status" ∧
    rgetd (rinsert (_set_state x s) "completed" (Value.vBool true)) "closed" =
      Value.vBool (rgetd (rinsert (_set_state x s) "completed" (Value.vBool true)) "state" ==
        Value.vStr "closed") := by
  unfold rgetd
  rw [rget_rinsert_ne _ _ _ _ (by decide), rget_rinsert_ne _ _ _ _ (by decide),
    rget_rinsert_ne _ _ _ _ (by decide)]
  exact set_state_consistent x s

/-- C4: the record mutated and returned by a successful `close_issue`, and
the one mutated and returned by a successful `complete_issue`, both end with
`state == status` and with `closed` equal to the boolean
`state == "closed"`. -/
theorem C4_state_consistency (issues1 : Issues) (n1 : Int) (r1 : Record) (s1 : Issues)
    (issues2 : Issues) (n2 : Int) (r2 : Record) (s2 : Issues)
    (h1 : close_issue issues1 n1 = (Except.ok r1, s1))
    (h2 : complete_issue issues2 n2 = (Except.ok r2, s2)) :
    (rgetd r1 "state" = rgetd r1 "status" ∧
      rgetd r1 "closed" = Value.vBool (rgetd r1 "state" == Value.vStr "closed")) ∧
    (rgetd r2 "state" = rgetd r2 "status" ∧
      rgetd r2 "closed" = Value.vBool (rgetd r2 "state" == Value.vStr "closed")) := by
  constructor
  · obtain ⟨x, hx⟩ := close_ok_shape issues1 n1 r1 s1 h1
    rw [hx]
    exact set_state_consistent x "closed"
  · obtain ⟨x, hx⟩ := complete_ok_shape issues2 n2 r2 s2 h2
    rw [hx]
    exact completed_flag_consistent x "closed"

/-- C4, witness: the consistency conjunction evaluated on concrete
successful `close_issue` and `complete_issue` calls. -/
theorem C4_witness :
    (rgetd [("number", Value.vInt 1), ("state", Value.vStr "closed"),
        ("status", Value.vStr "closed"), ("closed", Value.vBool true)] "state" =
      rgetd [("number", Value.vInt 1), ("state", Value.vStr "closed"),
        ("status", Value.vStr "closed"), ("closed", Value.vBool true)] "status" ∧
      rgetd [("number", Value.vInt 1), ("state", Value.vStr "closed"),
        ("status", Value.vStr "closed"), ("closed", Value.vBool true)] "closed" =
        Value.vBool (rgetd [("number", Value.vInt 1), ("state", Value.vStr "closed"),
          ("status", Value.vStr "closed"), ("closed", Value.vBool true)] "state" ==
            Value.vStr "closed")) ∧
    (rgetd [("number", Value.vInt 2), ("state", Value.vStr "closed"),
        ("status", Value.vStr "closed"), ("closed", Value.vBool true),
        ("completed", Value.vBool true)] "state" =
      rgetd [("number", Value.vInt 2), ("state", Value.vStr "closed"),
        ("status", Value.vStr "closed"), ("closed", Value.vBool true),
        ("completed", Value.vBool true)] "status" ∧
      rgetd [("number", Value.vInt 2), ("state", Value.vStr "closed"),
        ("status", Value.vStr "closed"), ("closed", Value.vBool true),
        ("completed", Value.vBool true)] "closed" =
        Value.vBool (rgetd [("number", Value.vInt 2), ("state", Value.vStr "closed"),
          ("status", Value.vStr "closed"), ("closed", Value.vBool true),
          ("completed", Value.vBool true)] "state" == Value.vStr "closed")) :=
  C4_state_consistency [[("number", Value.vInt 1)]] 1
    [("number", Value.vInt 1), ("state", Value.vStr "closed"),
      ("status", Value.vStr "closed"), ("closed", Value.vBool true)]
    [[("number", Value.vInt 1), ("state", Value.vStr "closed"),
      ("status", Value.vStr "closed"), ("closed", Value.vBool true)]]
    [[("number", Value.vInt 2)]] 2
    [("number", Value.vInt 2), ("state", Value.vStr "closed"),
      ("status", Value.vStr "closed"), ("closed", Value.vBool true),
      ("completed", Value.vBool true)]
    [[("number", Value.vInt 2), ("state", Value.vStr "closed"),
      ("status", Value.vStr "closed"), ("closed", Value.vBool true),
      ("completed", Value.vBool true)]]
    (by decide) (by decide)

/-- C3, counterexample: on the one-record collection whose record is already
closed but has only an `id` field, `complete_open_issues` with no
restriction does not leave the closed record entirely untouched: the scan
writes a `number` field into it (it does stay closed and gets no `completed`
flag). -/
theorem C3_counterexample :
    complete_open_issues [[("id", Value.vInt 1), ("state", Value.vStr "closed")]] none =
      (Except.ok [],
        [[("id", Value.vInt 1), ("state", Value.vStr "closed"), ("number", Value.vInt 1)]]) ∧
    _is_open [("id", Value.vInt 1), ("state", Value.vStr "closed")] = false ∧
    [[("id", Value.vInt 1), ("state", Value.vStr "closed"), ("number", Value.vInt 1)]] ≠
      [[("id", Value.vInt 1), ("state", Value.vStr "closed")]] := by
  decide

/-- C3, amended: when every record resolves an identifier and the resolved
identifiers are pairwise distinct, `complete_open_issues` with no
restriction completes every record that was open before the call (its state
becomes closed, with `completed = True`), and leaves every already-closed
record unchanged apart from ensuring its canonical `number` field — in
particular no `completed` flag is added to it. -/
theorem C3_complete_open_issues (issues : Issues) (ids : List Int)
    (h1 : List.Forall₂ (fun r k => _issue_identifier r = Except.ok k) issues ids)
    (h2 : ids.Nodup) :
    complete_open_issues issues none =
      (Except.ok ((issues.filter _is_open).map completeRec), issues.map finalRec) ∧
    (∀ r ∈ issues, _is_open r = true →
      _get_state (completeRec r) = "closed" ∧
      rget (completeRec r) "completed" = some (Value.vBool true) ∧
      finalRec r = completeRec r) ∧
    (∀ r ∈ issues, _is_open r = false →
      finalRec r = ensureRec r ∧
      ((rget r "number").isSome → finalRec r = r) ∧
      rget (ensureRec r) "completed" = rget r "completed") := by
  refine ⟨?_, ?_, ?_⟩
  · unfold complete_open_issues
    have := coiLoop_c3 h1 [] [] [] List.Forall₂.nil (by simpa using h2)
    simp only [List.nil_append, List.length_nil] at this
    rw [this]
  · intro r _ ho
    refine ⟨get_state_completeRec r, ?_, ?_⟩
    · unfold completeRec
      exact rget_rinsert_self _ _ _
    · unfold finalRec
      rw [if_pos ho]
  · intro r _ ho
    refine ⟨?_, ?_, ?_⟩
    · unfold finalRec
      rw [ho]
      simp
    · intro hs
      unfold finalRec
      rw [ho]
      simp only [Bool.false_eq_true, if_false]
      exact ensureRec_of_isSome r hs
    · exact rget_ensureRec_ne r "completed" (by decide)

/-- C3, witness: the amended statement evaluated on a concrete collection
with one open and one closed record with distinct identifiers. -/
theorem C3_witness :
    complete_open_issues [[("number", Value.vInt 1), ("state", Value.vStr "open")],
        [("id", Value.vInt 2), ("state", Value.vStr "closed")]] none =
      (Except.ok (([[("number", Value.vInt 1), ("state", Value.vStr "open")],
        [("id", Value.vInt 2), ("state", Value.vStr "closed")]].filter _is_open).map completeRec),
       [[("number", Value.vInt 1), ("state", Value.vStr "open")],
        [("id", Value.vInt 2), ("state", Value.vStr "closed")]].map finalRec) :=
  (C3_complete_open_issues
    [[("number", Value.vInt 1), ("state", Value.vStr "open")],
      [("id", Value.vInt 2), ("state", Value.vStr "closed")]] [1, 2]
    (List.Forall₂.cons (by decide) (List.Forall₂.cons (by decide) List.Forall₂.nil))
    (by decide)).1

/-- C6: with a collection in which some record resolves to `known` (first
match `a` after a prefix not matching it) and no record resolves to
`unknown`, `close_implemented_issues(collection, [known, unknown])`
processes the two numbers in order, closes exactly the one record found for
`known`, silently skips `unknown` without raising, and returns exactly that
one closed record. -/
theorem C6_close_implemented_issues (pre : Issues) (a : Record) (post : Issues) (k u : Int)
    (hku : k ≠ u)
    (hpre : ∀ r ∈ pre, ∃ m, _issue_identifier r = Except.ok m ∧ m ≠ k ∧ m ≠ u)
    (ha : _issue_identifier a = Except.ok k)
    (hpost : ∀ r ∈ post, ∃ m, _issue_identifier r = Except.ok m ∧ m ≠ u) :
    close_implemented_issues (pre ++ a :: post) [k, u] =
      (Except.ok [closeRec a], pre.map ensureRec ++ closeRec a :: post.map ensureRec) ∧
    _get_state (closeRec a) = "closed" ∧
    rget (closeRec a) "completed" = rget a "completed" := by
  have hpre' : ∀ r ∈ pre, ∃ m, _issue_identifier r = Except.ok m ∧ m ≠ k := by
    intro r hr
    obtain ⟨m, hm, hmk, _⟩ := hpre r hr
    exact ⟨m, hm, hmk⟩
  have hc1 := close_found pre a post k hpre' ha
  have hs1 : ∀ r ∈ pre.map ensureRec ++ closeRec a :: post,
      ∃ m, _issue_identifier r = Except.ok m ∧ m ≠ u := by
    intro r hr
    rcases List.mem_append.mp hr with hl | hm
    · obtain ⟨p, hp, hpe⟩ := List.mem_map.mp hl
      obtain ⟨m, hmid, _, hmu⟩ := hpre p hp
      exact ⟨m, by rw [← hpe]; exact ident_ensureRec p m hmid, hmu⟩
    · rcases List.mem_cons.mp hm with hc | hq
      · subst hc
        exact ⟨k, ident_closeRec a k ha, hku⟩
      · exact hpost r hq
  constructor
  · unfold close_implemented_issues
    have e1 : ciiLoop [k, u] (pre ++ a :: post) [] =
        (match close_issue (pre ++ a :: post) k with
         | (Except.ok r, s) => ciiLoop [u] s ([] ++ [r])
         | (Except.error Err.notFound, s) => ciiLoop [u] s []
         | (Except.error e, s) => (Except.error e, s)) := rfl
    rw [e1, hc1]
    show ciiLoop [u] (pre.map ensureRec ++ closeRec a :: post) [closeRec a] = _
    have e2 : ciiLoop [u] (pre.map ensureRec ++ closeRec a :: post) [closeRec a] =
        (match close_issue (pre.map ensureRec ++ closeRec a :: post) u with
         | (Except.ok r, s) => ciiLoop [] s ([closeRec a] ++ [r])
         | (Except.error Err.notFound, s) => ciiLoop [] s [closeRec a]
         | (Except.error e, s) => (Except.error e, s)) := rfl
    rw [e2, close_none _ u hs1]
    show (Except.ok [closeRec a], (pre.map ensureRec ++ closeRec a :: post).map ensureRec) = _
    have hmap : (pre.map ensureRec ++ closeRec a :: post).map ensureRec =
        pre.map ensureRec ++ closeRec a :: post.map ensureRec := by
      rw [List.map_append, List.map_cons]
      rw [List.map_map]
      have hcomp : pre.map (ensureRec ∘ ensureRec) = pre.map ensureRec :=
        List.map_congr_left (fun p _ => ensureRec_idem p)
      rw [hcomp, ensureRec_of_isSome _ (number_isSome_closeRec a k ha)]
    rw [hmap]
  · refine ⟨get_state_closeRec a, ?_⟩
    unfold closeRec
    rw [rget_set_state_other _ _ _ (by decide) (by decide) (by decide)]
    exact rget_ensureRec_ne a "completed" (by decide)

/-- C6, witness: the statement evaluated on a concrete one-record
collection with known number 1 and unknown number 2. -/
theorem C6_witness :
    close_implemented_issues [[("number", Value.vInt 1)]] [1, 2] =
      (Except.ok [closeRec [("number", Value.vInt 1)]],
        [closeRec [("number", Value.vInt 1)]]) ∧
    _get_state (closeRec [("number", Value.vInt 1)]) = "closed" := by
  have h := C6_close_implemented_issues [] [("number", Value.vInt 1)] [] 1 2
    (by decide) (by intro r hr; simp at hr) (by decide) (by intro r hr; simp at hr)
  exact ⟨h.1, h.2.1⟩

/-- C8: in a collection whose last record has none of the recognized
identifier fields (and whose earlier records resolve to other identifiers
and are closed, so every scan reaches it), `find_issue_index`,
`close_issue`, `complete_issue` and both bulk operations surface the
missing-identifier KeyError to the caller, while `list_open_issues`
silently tolerates it and returns that record's copy without a `number`
key. -/
theorem C8_missing_identifier (pre : Issues) (r : Record) (n : Int)
    (hpre : ∀ p ∈ pre, ∃ m, _issue_identifier p = Except.ok m ∧ m ≠ n)
    (hclosed : ∀ p ∈ pre, _is_open p = false)
    (h1 : rget r "number" = none) (h2 : rget r "id" = none)
    (h3 : rget r "issue_id" = none) (h4 : rget r "issueNumber" = none)
    (hopen : _is_open r = true) :
    (_find_issue_index (pre ++ [r]) n).1 = Except.error Err.keyError ∧
    (close_issue (pre ++ [r]) n).1 = Except.error Err.keyError ∧
    (complete_issue (pre ++ [r]) n).1 = Except.error Err.keyError ∧
    (close_implemented_issues (pre ++ [r]) [n]).1 = Except.error Err.keyError ∧
    (complete_open_issues (pre ++ [r]) none).1 = Except.error Err.keyError ∧
    (list_open_issues (pre ++ [r])).1 = Except.ok [r] ∧
    rget r "number" = none := by
  have hident : _issue_identifier r = Except.error Err.keyError :=
    ident_keyError_of_none r h1 h2 h3 h4
  refine ⟨?_, ?_, ?_, ?_, ?_, ?_, h1⟩
  · rw [find_err pre r [] n Err.keyError hpre hident]
  · rw [close_err pre r [] n Err.keyError hpre hident]
  · rw [complete_err pre r [] n Err.keyError hpre hident]
  · unfold close_implemented_issues
    have e1 : ciiLoop [n] (pre ++ [r]) [] =
        (match close_issue (pre ++ [r]) n with
         | (Except.ok r', s) => ciiLoop [] s ([] ++ [r'])
         | (Except.error Err.notFound, s) => ciiLoop [] s []
         | (Except.error e, s) => (Except.error e, s)) := rfl
    rw [e1, close_err pre r [] n Err.keyError hpre hident]
  · unfold complete_open_issues
    have hl : (pre ++ [r]).length = pre.length + 1 := by simp
    rw [hl]
    have hrest : ∀ p ∈ pre, (∃ m, _issue_identifier p = Except.ok m) ∧ _is_open p = false := by
      intro p hp
      obtain ⟨m, hm, _⟩ := hpre p hp
      exact ⟨⟨m, hm⟩, hclosed p hp⟩
    have hc8 := coiLoop_c8 r hident pre [] [] hrest
    simp only [List.nil_append, List.length_nil] at hc8
    exact hc8
  · have hok : ∀ p ∈ pre ++ [r], _issue_identifier p ≠ Except.error Err.valueError := by
      intro p hp
      rcases List.mem_append.mp hp with hl | hm
      · obtain ⟨m, hm, _⟩ := hpre p hl
        simp [hm]
      · have hp' : p = r := by simpa using hm
        subst hp'
        simp [hident]
    unfold list_open_issues
    rw [lowLoop_ok _ hok _ 0 [] (by omega)]
    have hfil : (pre ++ [r]).filter _is_open = [r] := by
      rw [List.filter_append]
      have hfp : pre.filter _is_open = [] := by
        rw [List.filter_eq_nil_iff]
        intro p hp
        simp [hclosed p hp]
      rw [hfp]
      simp [List.filter, hopen]
    rw [List.drop_zero, hfil]
    have hcr : copyRec r = r := by
      unfold copyRec
      rw [hident]
    simp [hcr]

/-- C8, witness: the statement evaluated with one closed resolvable record
followed by a record with no identifier field. -/
theorem C8_witness :
    (_find_issue_index [[("number", Value.vInt 1), ("state", Value.vStr "closed")],
      [("title", Value.vStr "t")]] 2).1 = Except.error Err.keyError ∧
    (close_issue [[("number", Value.vInt 1), ("state", Value.vStr "closed")],
      [("title", Value.vStr "t")]] 2).1 = Except.error Err.keyError ∧
    (complete_issue [[("number", Value.vInt 1), ("state", Value.vStr "closed")],
      [("title", Value.vStr "t")]] 2).1 = Except.error Err.keyError ∧
    (close_implemented_issues [[("number", Value.vInt 1), ("state", Value.vStr "closed")],
      [("title", Value.vStr "t")]] [2]).1 = Except.error Err.keyError ∧
    (complete_open_issues [[("number", Value.vInt 1), ("state", Value.vStr "closed")],
      [("title", Value.vStr "t")]] none).1 = Except.error Err.keyError ∧
    (list_open_issues [[("number", Value.vInt 1), ("state", Value.vStr "closed")],
      [("title", Value.vStr "t")]]).1 = Except.ok [[("title", Value.vStr "t")]] ∧
    rget [("title", Value.vStr "t")] "number" = none := by
  have h := C8_missing_identifier [[("number", Value.vInt 1), ("state", Value.vStr "closed")]]
    [("title", Value.vStr "t")] 2
    (by
      intro p hp
      have hp' : p = [("number", Value.vInt 1), ("state", Value.vStr "closed")] := by
        simpa using hp
      subst hp'
      exact ⟨1, by decide, by decide⟩)
    (by
      intro p hp
      have hp' : p = [("number", Value.vInt 1), ("state", Value.vStr "closed")] := by
        simpa using hp
      subst hp'
      decide)
    (by decide) (by decide) (by decide) (by decide) (by decide)
  exact h

theorem set_state_eq_self (x : Record)
    (hst : rget x "state" = some (Value.vStr "closed"))
    (hsu : rget x "status" = some (Value.vStr "closed"))
    (hcl : rget x "closed" = some (Value.vBool true)) :
    _set_state x "closed" = x := by
  show rinsert (rinsert (rinsert x "state" (Value.vStr (_normalise_state (Value.vStr "closed"))))
      "status" (Value.vStr (_normalise_state (Value.vStr "closed"))))
    "closed" (Value.vBool (_normalise_state (Value.vStr "closed") == "closed")) = x
  rw [norm_closed]
  rw [show (("closed" : String) == "closed") = true from by decide]
  rw [rinsert_eq_self x "state" _ hst, rinsert_eq_self x "status" _ hsu,
    rinsert_eq_self x "closed" _ hcl]

theorem completeRec_idem (a : Record) (k : Int) (h : _issue_identifier a = Except.ok k) :
    completeRec (completeRec a) = completeRec a := by
  have hbeq : ((_normalise_state (Value.vStr "closed")) == "closed") = true := by decide
  have hst : rget (completeRec a) "state" = some (Value.vStr "closed") := by
    unfold completeRec
    rw [rget_rinsert_ne _ _ _ _ (by decide)]
    unfold closeRec
    rw [rget_set_state_state, norm_closed]
  have hsu : rget (completeRec a) "status" = some (Value.vStr "closed") := by
    unfold completeRec
    rw [rget_rinsert_ne _ _ _ _ (by decide)]
    unfold closeRec
    rw [rget_set_state_status, norm_closed]
  have hcl : rget (completeRec a) "closed" = some (Value.vBool true) := by
    unfold completeRec
    rw [rget_rinsert_ne _ _ _ _ (by decide)]
    unfold closeRec
    rw [rget_set_state_closed, hbeq]
  have hco : rget (completeRec a) "completed" = some (Value.vBool true) := by
    unfold completeRec
    exact rget_rinsert_self _ _ _
  show rinsert (closeRec (completeRec a)) "completed" (Value.vBool true) = completeRec a
  unfold closeRec
  rw [ensureRec_completeRec a k h]
  rw [set_state_eq_self (completeRec a) hst hsu hcl]
  exact rinsert_eq_self _ _ _ hco

/-- C9: when a two-record collection holds distinct open records that both
resolve to the same identifier, `complete_open_issues` with no restriction
appends the first record's completed form to its result twice (once per
iteration) and never closes or completes the second record: the second ends
as its original self with only the canonical `number` ensured, still open,
its `completed` field and state unchanged. -/
theorem C9_duplicate_identifiers (a b : Record) (k : Int)
    (h1 : _issue_identifier a = Except.ok k) (h2 : _issue_identifier b = Except.ok k)
    (h3 : _is_open a = true) (h4 : _is_open b = true) (h5 : a ≠ b) :
    complete_open_issues [a, b] none =
      (Except.ok [completeRec a, completeRec a], [completeRec a, ensureRec b]) ∧
    _is_open (ensureRec b) = true ∧
    rget (ensureRec b) "completed" = rget b "completed" ∧
    _get_state (ensureRec b) = _get_state b := by
  refine ⟨?_, by rw [is_open_ensureRec]; exact h4,
    rget_ensureRec_ne b "completed" (by decide), get_state_ensureRec b⟩
  show coiLoop [a, b] none 2 0 [] = _
  show (if (0 : Nat) < ([a, b] : Issues).length then _ else (Except.ok [], [a, b])) = _
  rw [if_pos (by simp)]
  have hg0 : ([a, b] : Issues).getD 0 [] = a := rfl
  rw [hg0, ensure_eq_ok a k h1]
  show (if (false : Bool) then _ else
    if _is_open (ensureRec a) then
      (match complete_issue (([a, b] : Issues).set 0 (ensureRec a)) k with
       | (Except.error e, s) => (Except.error e, s)
       | (Except.ok r, s) => coiLoop s none 1 1 ([] ++ [r]))
    else coiLoop (([a, b] : Issues).set 0 (ensureRec a)) none 1 1 []) = _
  rw [if_neg (by simp), is_open_ensureRec, if_pos h3]
  have hset0 : ([a, b] : Issues).set 0 (ensureRec a) = [ensureRec a, b] := rfl
  rw [hset0]
  have hcomp1 : complete_issue [ensureRec a, b] k =
      (Except.ok (completeRec a), [completeRec a, b]) := by
    have hfound := complete_found [] (ensureRec a) [b] k (by intro d hd; simp at hd)
      (ident_ensureRec a k h1)
    rw [completeRec_ensureRec] at hfound
    simpa using hfound
  rw [hcomp1]
  show coiLoop [completeRec a, b] none 1 1 [completeRec a] = _
  show (if (1 : Nat) < ([completeRec a, b] : Issues).length then _ else
    (Except.ok [completeRec a], [completeRec a, b])) = _
  rw [if_pos (by simp)]
  have hg1 : ([completeRec a, b] : Issues).getD 1 [] = b := rfl
  rw [hg1, ensure_eq_ok b k h2]
  show (if (false : Bool) then _ else
    if _is_open (ensureRec b) then
      (match complete_issue (([completeRec a, b] : Issues).set 1 (ensureRec b)) k with
       | (Except.error e, s) => (Except.error e, s)
       | (Except.ok r, s) => coiLoop s none 0 2 ([completeRec a] ++ [r]))
    else coiLoop (([completeRec a, b] : Issues).set 1 (ensureRec b)) none 0 2 [completeRec a]) = _
  rw [if_neg (by simp), is_open_ensureRec, if_pos h4]
  have hset1 : ([completeRec a, b] : Issues).set 1 (ensureRec b) =
      [completeRec a, ensureRec b] := rfl
  rw [hset1]
  have hcomp2 : complete_issue [completeRec a, ensureRec b] k =
      (Except.ok (completeRec a), [completeRec a, ensureRec b]) := by
    have hfound := complete_found [] (completeRec a) [ensureRec b] k (by intro d hd; simp at hd)
      (ident_completeRec a k h1)
    rw [completeRec_idem a k h1] at hfound
    simpa using hfound
  rw [hcomp2]
  show (Except.ok ([completeRec a] ++ [completeRec a]), [completeRec a, ensureRec b]) = _
  simp

/-- C9, witness: the statement evaluated on two open records both resolving
to identifier 1. -/
theorem C9_witness :
    complete_open_issues [[("number", Value.vInt 1)], [("id", Value.vInt 1)]] none =
      (Except.ok [completeRec [("number", Value.vInt 1)], completeRec [("number", Value.vInt 1)]],
        [completeRec [("number", Value.vInt 1)], ensureRec [("id", Value.vInt 1)]]) ∧
    _is_open (ensureRec [("id", Value.vInt 1)]) = true :=
  have h := C9_duplicate_identifiers [("number", Value.vInt 1)] [("id", Value.vInt 1)] 1
    (by decide) (by decide) (by decide) (by decide) (by decide)
  ⟨h.1, h.2.1⟩
